import Mathlib

/-!
Shallow embedding of the "assert-divide" proof-decomposition loop of the
ide-vscode repository (drafts `SketchAssertDivide` in `src/unnamed/part_001`
and `GenerateCommands` in `src/src/ui/generateCommands.ts`), together with
theorems checking the natural-language specification against it.

Buffers are modelled as lists of line strings, diagnostics as the list of
line numbers carrying a verification-error diagnostic, and the two
asynchronous oracles (the suggestion service and the verifier) as explicit
inputs to the transition functions.  JavaScript string primitives
(`trim`, `startsWith`, the `replace` and `includes` calls) are modelled
structurally over the character list of the string, so that every
definition evaluates by kernel reduction.
-/

/-- Obligation anchored to a buffer line: the inline record
`\x7b line: number, assertion: string \x7d` used throughout the source. -/
structure Obligation where
  line : Nat
  assertion : String
deriving DecidableEq, Repr

/-- Session state, `interface AssertDivideState` of `SketchAssertDivide`
(part_001): target obligation, search depth, pending attempt, and the list
of obligations already promoted past (`verifiedAssertions`). -/
structure AssertDivideState where
  targetAssertion : Obligation
  depth : Nat
  attempt : Option Obligation
  verifiedAssertions : List Obligation
deriving DecidableEq, Repr

/-- JavaScript `String.prototype.trim` over the character list: drop
whitespace from both ends. -/
def trimChars (cs : List Char) : List Char :=
  ((cs.dropWhile Char.isWhitespace).reverse.dropWhile Char.isWhitespace).reverse

/-- Step `assertion.replace(/^assert\s+/, '')` of
`generateIntermediateAssertion`: remove one leading `assert` keyword
together with the following run of whitespace, when the keyword is
followed by at least one whitespace character. -/
def stripAssertKeywordChars (cs : List Char) : List Char :=
  if cs.take 6 = "assert".toList then
    match cs.drop 6 with
    | [] => cs
    | c :: rest => if c.isWhitespace then (c :: rest).dropWhile Char.isWhitespace else cs
  else cs

/-- Step `assertion.replace(/;$/, '')` of `generateIntermediateAssertion`:
remove one trailing semicolon, if present. -/
def stripTrailingSemiChars (cs : List Char) : List Char :=
  if cs.getLast? = some ';' then cs.dropLast else cs

/-- The cleaning pipeline of `generateIntermediateAssertion`:
`result.sketch.trim()` then the two `replace` calls. -/
def sanitizeSketchChars (cs : List Char) : List Char :=
  stripTrailingSemiChars (stripAssertKeywordChars (trimChars cs))

/-- Oracle-response validation of `SketchAssertDivide.generateIntermediateAssertion`
(part_001): `none` models both a missing `result.sketch` and a thrown error;
the truthiness test `if(result?.sketch)` also treats an empty-string
response as absent; a present non-empty sketch is cleaned and then rejected
iff it still contains a newline (`assertion.includes('\n')`). -/
def validateSketch (sketch : Option String) : Option String :=
  match sketch with
  | none => none
  | some raw =>
    if raw.data = [] then none
    else if (sanitizeSketchChars raw.data).contains '\n' then none
    else some (String.mk (sanitizeSketchChars raw.data))

/-- Oracle-response validation of `GenerateCommands.generateIntermediateAssertion`
(generateCommands.ts): same pipeline, with the same truthiness test
`if(result?.sketch)` treating an empty-string response as absent, but the
cleaned sketch is rejected iff it contains a newline or a semicolon
(`assertion.includes('\n') || assertion.includes(';')`). -/
def validateSketchGC (sketch : Option String) : Option String :=
  match sketch with
  | none => none
  | some raw =>
    if raw.data = [] then none
    else if (sanitizeSketchChars raw.data).contains '\n' || (sanitizeSketchChars raw.data).contains ';' then none
    else some (String.mk (sanitizeSketchChars raw.data))

/-- Document mutator `insertAssertion`: a `WorkspaceEdit.insert` at
`Position(line, 0)` of the text `"    assert A; // Intermediate step\n"`,
i.e. a new line inserted immediately before index `line`. -/
def insertAssertion (buf : List String) (a : String) (line : Nat) : List String :=
  buf.insertIdx line ("    assert " ++ a ++ "; // Intermediate step")

/-- Document mutator `commentOutLine`: a `WorkspaceEdit.replace` of the full
range of line `line` by `"// " ++ lineText`. -/
def commentOutLine (buf : List String) (line : Nat) : List String :=
  buf.set line ("// " ++ buf.getD line "")

/-- Context Window Builder `getAssertionContext`: the loop over
`[Math.max(0, line - 5), Math.min(lineCount, line + 5))` accumulating each
line followed by a newline, with line `line` wrapped in the `>>>`/`<<<`
markers. -/
def getAssertionContext (doc : List String) (line : Nat) : String :=
  (List.range' (max 0 (line - 5)) (min doc.length (line + 5) - max 0 (line - 5))).foldl
    (fun ctx i =>
      if i = line then ctx ++ ">>> " ++ doc.getD i "" ++ " <<<\n"
      else ctx ++ doc.getD i "" ++ "\n") ""

/-- Description of the context window taken from the spec's words (section
4.2): the lines of the interval `[max(0, L-5), min(lineCount, L+5))`, the
target line wrapped in the distinguishing markers and every other line
unmodified, each rendered line followed by a newline, joined in order.
Compared with `getAssertionContext` in theorem
`context_window_matches_spec`. -/
def contextWindowSpec (doc : List String) (line : Nat) : String :=
  String.join
    ((List.range' (max 0 (line - 5)) (min doc.length (line + 5) - max 0 (line - 5))).map
      (fun i => (if i = line then ">>> " ++ doc.getD i "" ++ " <<<" else doc.getD i "") ++ "\n"))

/-- One attempt of the regex `/assert\s+(.*?);/` at the head of `cs`:
the literal `assert`, at least one whitespace character, then the shortest
run of characters up to a semicolon, which is captured. -/
def matchAssertAt (cs : List Char) : Option (List Char) :=
  if cs.take 6 = "assert".toList then
    match cs.drop 6 with
    | [] => none
    | c :: rest =>
      if c.isWhitespace then
        let body := (c :: rest).dropWhile Char.isWhitespace
        if body.contains ';' then some (body.takeWhile (fun d => d ≠ ';')) else none
      else none
  else none

/-- Leftmost match of the unanchored regex `/assert\s+(.*?);/`
(`text.match(...)` in `extractAssertInfo`): try every start position from
the left and return the first capture. -/
def findAssertMatch : List Char → Option (List Char)
  | [] => none
  | c :: rest =>
    match matchAssertAt (c :: rest) with
    | some cap => some cap
    | none => findAssertMatch rest

/-- Target Extractor `extractAssertInfo`: the cursor line's text must
trim-start with `assert` and match `/assert\s+(.*?);/`; on success the
trimmed capture becomes the obligation's statement, anchored at the cursor
line. -/
def extractAssertInfo (cursorLine : Nat) (text : String) : Option Obligation :=
  if (trimChars text.data).take 6 ≠ "assert".toList then none
  else
    match findAssertMatch text.data with
    | none => none
    | some cap => some { line := cursorLine, assertion := String.mk (trimChars cap) }

/-- Result of one `tryAssertStep` call (`Advance` in the spec): the session
is deleted at the depth guard (`exhausted`), deleted because no candidate
was produced (`abandoned`), or a candidate was inserted and recorded
(`issued`). -/
inductive StepOutcome where
  | exhausted
  | abandoned
  | issued (st : AssertDivideState) (buf : List String)
deriving DecidableEq, Repr

/-- Orchestrator step `SketchAssertDivide.tryAssertStep` (part_001): guard
`state.depth > 5` (session deleted), `state.depth++`, candidate generation
(session deleted on failure), insertion at the target's line, the shift
`state.targetAssertion.line++`, and `attempt` recorded at
`targetAssertion.line - 1`. -/
def tryAssertStep (sketch : Option String) (st : AssertDivideState)
    (buf : List String) : StepOutcome :=
  if st.depth > 5 then .exhausted
  else
    match validateSketch sketch with
    | none => .abandoned
    | some a =>
      .issued
        { targetAssertion :=
            { line := st.targetAssertion.line + 1
              assertion := st.targetAssertion.assertion }
          depth := st.depth + 1
          attempt := some { line := st.targetAssertion.line + 1 - 1, assertion := a }
          verifiedAssertions := st.verifiedAssertions }
        (insertAssertion buf a st.targetAssertion.line)

/-- Orchestrator step `GenerateCommands.tryAssertStep` (generateCommands.ts):
identical control flow, with that draft's stricter response validation. -/
def tryAssertStepGC (sketch : Option String) (st : AssertDivideState)
    (buf : List String) : StepOutcome :=
  if st.depth > 5 then .exhausted
  else
    match validateSketchGC sketch with
    | none => .abandoned
    | some a =>
      .issued
        { targetAssertion :=
            { line := st.targetAssertion.line + 1
              assertion := st.targetAssertion.assertion }
          depth := st.depth + 1
          attempt := some { line := st.targetAssertion.line + 1 - 1, assertion := a }
          verifiedAssertions := st.verifiedAssertions }
        (insertAssertion buf a st.targetAssertion.line)

/-- The promotion performed on `targetOK && !newOK`: push the old target on
`verifiedAssertions`, make the attempt the new target, clear `attempt`. -/
def promote (st : AssertDivideState) (a : Obligation) : AssertDivideState :=
  { targetAssertion := a
    depth := st.depth
    attempt := none
    verifiedAssertions := st.verifiedAssertions ++ [st.targetAssertion] }

/-- Result of one `handleDiagnosticsChange` invocation on a live session:
the session was deleted (with the success flag distinguishing the success
message from the give-up message), a nested `tryAssertStep` ran (`advanced`
carries its outcome), or nothing happened at all. -/
inductive FeedbackResult where
  | deleted (success : Bool)
  | advanced (next : StepOutcome)
  | unchanged (st : AssertDivideState) (buf : List String)
deriving DecidableEq, Repr

/-- Feedback handler `SketchAssertDivide.handleDiagnosticsChange`
(part_001), transcribed branch by branch: `targetOK`/`newOK` are the
absence of a verification-error line at the target's and the attempt's
line; with an attempt present, `targetOK && !newOK` promotes and re-runs
`tryAssertStep`, `targetOK && newOK` deletes with success, and the source's
trailing third branch (comment the attempt's line out and retry) is kept
even though its guard is unreachable; nothing at all happens when
`targetOK` is false; with no attempt the session is deleted either way. -/
def handleDiagnosticsChange (errors : List Nat) (sketch : Option String)
    (st : AssertDivideState) (buf : List String) : FeedbackResult :=
  let targetOK := !(errors.contains st.targetAssertion.line)
  match st.attempt with
  | some a =>
    let newOK := !(errors.contains a.line)
    if targetOK then
      if !newOK then .advanced (tryAssertStep sketch (promote st a) buf)
      else if newOK then .deleted true
      else .advanced (tryAssertStep sketch st (commentOutLine buf a.line))
    else .unchanged st buf
  | none => .deleted targetOK

/-- Feedback handler `GenerateCommands.handleDiagnosticsChange`
(generateCommands.ts lines 799-820): if the target's line carries no
verification error the session is deleted with success immediately,
regardless of the attempt; otherwise a verifying attempt is promoted and
`tryAssertStep` re-runs, and in every other case `tryAssertStep` re-runs on
the unchanged state (no line is commented out, `attempt` is not cleared). -/
def handleDiagnosticsChangeGC (errors : List Nat) (sketch : Option String)
    (st : AssertDivideState) (buf : List String) : FeedbackResult :=
  if !(errors.contains st.targetAssertion.line) then .deleted true
  else
    match st.attempt with
    | some a =>
      if !(errors.contains a.line) then
        .advanced (tryAssertStepGC sketch (promote st a) buf)
      else .advanced (tryAssertStepGC sketch st buf)
    | none => .advanced (tryAssertStepGC sketch st buf)

/-- Diagnostics aggregation of the first part_001 draft (lines 211-231):
keep only the entries whose buffer identity equals the session's document
key, and collect their diagnostic start lines. -/
def collectDiagnostics (docKey : String) (all : List (String × List Nat)) : List Nat :=
  (all.filter (fun p => p.1 == docKey)).flatMap (fun p => p.2)

/-- Diagnostics aggregation of the second part_001 draft (lines 540-554):
collect the diagnostic start lines of every buffer, with no identity
filter. -/
def collectDiagnosticsAll (all : List (String × List Nat)) : List Nat :=
  all.flatMap (fun p => p.2)

/-- The diagnostic-handling step of the first part_001 draft: filtered
aggregation composed with the feedback handler. -/
def diagnosticsStep (docKey : String) (all : List (String × List Nat))
    (sketch : Option String) (st : AssertDivideState) (buf : List String) : FeedbackResult :=
  handleDiagnosticsChange (collectDiagnostics docKey all) sketch st buf

/-- The diagnostic-handling step of the second part_001 draft: unfiltered
aggregation composed with the (structurally identical) feedback handler. -/
def diagnosticsStepAll (all : List (String × List Nat))
    (sketch : Option String) (st : AssertDivideState) (buf : List String) : FeedbackResult :=
  handleDiagnosticsChange (collectDiagnosticsAll all) sketch st buf

/-- Entry point `SketchAssertDivide.handle`: extract the obligation at the
cursor; on failure return with no session created and the buffer untouched;
on success create the fresh session (depth 0, no attempt, empty history)
and run the first `tryAssertStep`. -/
def handle (cursorLine : Nat) (text : String) (sketch : Option String)
    (buf : List String) : Option AssertDivideState × List String :=
  match extractAssertInfo cursorLine text with
  | none => (none, buf)
  | some info =>
    match tryAssertStep sketch
        { targetAssertion := info, depth := 0, attempt := none, verifiedAssertions := [] }
        buf with
    | .exhausted => (none, buf)
    | .abandoned => (none, buf)
    | .issued st1 buf1 => (some st1, buf1)

/-- A live-or-destroyed session, for whole-run statements. -/
inductive RunState where
  | alive (st : AssertDivideState) (buf : List String)
  | dead
deriving DecidableEq, Repr

/-- Counters for a run: total `tryAssertStep` calls and candidates
actually issued (insertions performed). -/
structure RunStats where
  calls : Nat
  cands : Nat
deriving DecidableEq, Repr

/-- Book-keeping around one `tryAssertStep` call: count the call, count the
candidate when one was issued, and record session destruction. -/
def applyOutcome (out : StepOutcome) (s : RunStats) : RunState × RunStats :=
  match out with
  | .exhausted => (.dead, { s with calls := s.calls + 1 })
  | .abandoned => (.dead, { s with calls := s.calls + 1 })
  | .issued st buf => (.alive st buf, { calls := s.calls + 1, cands := s.cands + 1 })

/-- One verifier notification processed by the part_001 feedback handler;
the suggestion oracle is consulted (indexed by the number of calls made so
far) when the handler re-runs `tryAssertStep`. -/
def feedbackStep (oracle : Nat → Option String) (errors : List Nat) :
    RunState × RunStats → RunState × RunStats
  | (.dead, s) => (.dead, s)
  | (.alive st buf, s) =>
    match handleDiagnosticsChange errors (oracle s.calls) st buf with
    | .deleted _ => (.dead, s)
    | .unchanged st1 buf1 => (.alive st1 buf1, s)
    | .advanced out => applyOutcome out s

/-- A whole session run: the initial `tryAssertStep` issued by `handle`,
then one `feedbackStep` per verifier notification, for an arbitrary oracle
and an arbitrary sequence of diagnostics. -/
def runSession (oracle : Nat → Option String) (events : List (List Nat))
    (st0 : AssertDivideState) (buf0 : List String) : RunState × RunStats :=
  events.foldl (fun acc ev => feedbackStep oracle ev acc)
    (applyOutcome (tryAssertStep (oracle 0) st0 buf0) { calls := 0, cands := 0 })

/-- Modelled from the spec: the `generation` counter of section 3 and the
staleness guard of `OnFeedback` (section 4.6) are absent from every draft
in the source (the spec itself notes the counter is "absent in the source,
required for correctness"); this session type pairs the source's state with
the spec's counter. -/
structure GenSession where
  state : AssertDivideState
  generation : Nat
deriving DecidableEq, Repr

/-- Outcome of a generation-guarded feedback delivery. -/
inductive GenOutcome where
  | noop (s : GenSession) (buf : List String)
  | terminated (success : Bool)
  | unchanged (s : GenSession) (buf : List String)
  | issued (s : GenSession) (buf : List String)
deriving DecidableEq, Repr

/-- Modelled from the spec (section 4.6 `OnFeedback`): feedback tagged with
a generation other than the session's current one is discarded; fresh
feedback is processed by the source's handler, and a newly issued attempt
bumps the generation. -/
def onFeedback (generationAtDispatch : Nat) (errors : List Nat)
    (sketch : Option String) (s : GenSession) (buf : List String) : GenOutcome :=
  if generationAtDispatch ≠ s.generation then .noop s buf
  else
    match handleDiagnosticsChange errors sketch s.state buf with
    | .deleted b => .terminated b
    | .unchanged st1 buf1 => .unchanged { s with state := st1 } buf1
    | .advanced .exhausted => .terminated false
    | .advanced .abandoned => .terminated false
    | .advanced (.issued st1 buf1) =>
      .issued { state := st1, generation := s.generation + 1 } buf1

/-! ### Concrete sessions and inputs used by witnesses and counterexamples -/

/-- A fresh session on the obligation `A` at line 10, as `handle` creates it. -/
def sessionFresh : AssertDivideState :=
  { targetAssertion := { line := 10, assertion := "A" }
    depth := 0
    attempt := none
    verifiedAssertions := [] }

/-- The pending attempt of `sessionMid`. -/
def attemptMid : Obligation := { line := 10, assertion := "B" }

/-- A mid-run session: target shifted to line 11, attempt at line 10. -/
def sessionMid : AssertDivideState :=
  { targetAssertion := { line := 11, assertion := "A" }
    depth := 1
    attempt := some attemptMid
    verifiedAssertions := [] }

/-- A session whose target sits at line 3 with its attempt at line 2. -/
def sessionLow : AssertDivideState :=
  { targetAssertion := { line := 3, assertion := "A" }
    depth := 1
    attempt := some { line := 2, assertion := "B" }
    verifiedAssertions := [] }

/-! ### Shared helper lemmas -/

theorem strFoldlAppend (l : List String) :
    ∀ s : String, l.foldl (fun r t => r ++ t) s = s ++ l.foldl (fun r t => r ++ t) "" := by
  induction l with
  | nil => intro s; simp [List.foldl, String.append_empty]
  | cons a t ih =>
    intro s
    simp only [List.foldl]
    rw [ih (s ++ a), ih ("" ++ a), String.empty_append, String.append_assoc]

theorem strJoinCons (a : String) (l : List String) :
    String.join (a :: l) = a ++ String.join l := by
  simp only [String.join, List.foldl]
  rw [strFoldlAppend l ("" ++ a), String.empty_append]

theorem ctxFoldl (doc : List String) (line : Nat) (l : List Nat) :
    ∀ s : String,
      l.foldl
        (fun ctx i =>
          if i = line then ctx ++ ">>> " ++ doc.getD i "" ++ " <<<\n"
          else ctx ++ doc.getD i "" ++ "\n") s =
      s ++ String.join
        (l.map (fun i =>
          (if i = line then ">>> " ++ doc.getD i "" ++ " <<<" else doc.getD i "") ++ "\n")) := by
  induction l with
  | nil => intro s; simp [String.join, String.append_empty]
  | cons i t ih =>
    intro s
    simp only [List.foldl, List.map]
    rw [ih, strJoinCons, ← String.append_assoc]
    by_cases h : i = line
    · simp only [h, if_pos rfl]
      rw [show (" <<<\n" : String) = " <<<" ++ "\n" from rfl]
      simp [String.append_assoc]
    · simp only [if_neg h]
      simp [String.append_assoc]

/-! ### C9: the context window builder matches the spec's description -/

/-- C9: for every buffer and valid target line, `getAssertionContext` returns
exactly the joined rendering of the lines in
`[max(0, L-5), min(lineCount, L+5))`, with line `L` wrapped in the
`>>>`/`<<<` markers and every other line unmodified, each followed by a
newline; being a function of its two arguments it is pure and
deterministic. -/
theorem context_window_matches_spec (doc : List String) (line : Nat)
    (_h : line < doc.length) : getAssertionContext doc line = contextWindowSpec doc line := by
  unfold getAssertionContext contextWindowSpec
  rw [ctxFoldl, String.empty_append]

/-- Witness for C9 at a concrete buffer and line. -/
theorem context_window_matches_spec_witness :
    getAssertionContext ["a", "b", "c", "d"] 2 = contextWindowSpec ["a", "b", "c", "d"] 2 :=
  context_window_matches_spec ["a", "b", "c", "d"] 2 (by decide)

/-! ### C10: commentOutLine frame property -/

/-- C10: for every buffer and in-bounds line `L`, `commentOutLine` keeps the
line count, replaces line `L` by the comment marker `"// "` followed by the
original text, and leaves every other line untouched. -/
theorem commentOutLine_frame (buf : List String) (L : Nat) (h : L < buf.length) :
    (commentOutLine buf L).length = buf.length ∧
    (commentOutLine buf L).getD L "" = "// " ++ buf.getD L "" ∧
    ∀ i, i ≠ L → (commentOutLine buf L).getD i "" = buf.getD i "" := by
  refine ⟨List.length_set buf L _, ?_, ?_⟩
  · simp [commentOutLine, List.getD_eq_getElem?_getD, List.getElem?_set, h,
      List.getElem?_eq_getElem h]
  · intro i hi
    simp [commentOutLine, List.getD_eq_getElem?_getD, List.getElem?_set_ne (Ne.symm hi)]

/-- Witness for C10 at a concrete buffer and line. -/
theorem commentOutLine_frame_witness :
    (commentOutLine ["a", "b"] 0).length = 2 ∧
    (commentOutLine ["a", "b"] 0).getD 0 "" = "// " ++ "a" ∧
    (commentOutLine ["a", "b"] 0).getD 1 "" = "b" :=
  ⟨(commentOutLine_frame ["a", "b"] 0 (by decide)).1,
   (commentOutLine_frame ["a", "b"] 0 (by decide)).2.1,
   (commentOutLine_frame ["a", "b"] 0 (by decide)).2.2 1 (by decide)⟩

/-! ### C2: no Retry ever happens when the target fails -/

/-- C2 (code bug): when feedback reports the target's line as failing while
an attempt is pending, the part_001 handler performs no transition at all —
the session and the buffer are returned untouched, the attempt's line is
not commented out, the attempt is not cleared and `tryAssertStep` is not
called — both when the attempt verifies (first conjunct) and when it fails
too (second conjunct).  The source's retry code sits in an unreachable
`else` after the exhaustive `!newOK`/`newOK` tests. -/
theorem target_failure_causes_no_retry :
    handleDiagnosticsChange [11] (some "p") sessionMid ["l"] =
      .unchanged sessionMid ["l"] ∧
    handleDiagnosticsChange [10, 11] (some "p") sessionMid ["l"] =
      .unchanged sessionMid ["l"] :=
  ⟨rfl, rfl⟩

/-! ### C5: oracle response validation -/

/-- C5 (counterexample): a response carrying the leading obligation keyword
and a terminator is not rejected — it is normalized and accepted — and the
part_001 validator also accepts a response with an embedded statement
separator, so the claimed rejection of every shape violation is false. -/
theorem malformed_responses_accepted :
    validateSketch (some "assert x > 0;") = some "x > 0" ∧
    validateSketch (some "x > 0; y > 1") = some "x > 0; y > 1" :=
  ⟨rfl, rfl⟩

/-- C5 (amended): the validators strip one leading `assert` keyword and one
trailing semicolon instead of rejecting them; an empty response is treated
as absent by the `if(result?.sketch)` truthiness test; beyond emptiness,
the part_001 validator rejects (treats as absent) exactly the responses
whose cleaned form still contains an embedded newline, the GenerateCommands
validator exactly those containing an embedded newline or semicolon; an
accepted candidate never contains a newline; and a missing response is
absent for both. -/
theorem oracle_response_validation (raw : String) :
    (validateSketch (some raw) = none ↔
      (raw.data = [] ∨ (sanitizeSketchChars raw.data).contains '\n' = true)) ∧
    (validateSketchGC (some raw) = none ↔
      (raw.data = [] ∨ ((sanitizeSketchChars raw.data).contains '\n'
        || (sanitizeSketchChars raw.data).contains ';') = true)) ∧
    (∀ a, validateSketch (some raw) = some a → a.data.contains '\n' = false) ∧
    validateSketch none = none ∧ validateSketchGC none = none := by
  refine ⟨?_, ?_, ?_, rfl, rfl⟩
  · simp only [validateSketch]
    by_cases he : raw.data = []
    · rw [if_pos he]
      exact iff_of_true rfl (Or.inl he)
    · rw [if_neg he]
      by_cases hc : (sanitizeSketchChars raw.data).contains '\n' = true
      · rw [if_pos hc]
        exact iff_of_true rfl (Or.inr hc)
      · rw [if_neg hc]
        refine iff_of_false (Option.some_ne_none _) ?_
        rintro (h | h)
        · exact he h
        · exact hc h
  · simp only [validateSketchGC]
    by_cases he : raw.data = []
    · rw [if_pos he]
      exact iff_of_true rfl (Or.inl he)
    · rw [if_neg he]
      by_cases hc : ((sanitizeSketchChars raw.data).contains '\n'
          || (sanitizeSketchChars raw.data).contains ';') = true
      · rw [if_pos hc]
        exact iff_of_true rfl (Or.inr hc)
      · rw [if_neg hc]
        refine iff_of_false (Option.some_ne_none _) ?_
        rintro (h | h)
        · exact he h
        · exact hc h
  · intro a ha
    simp only [validateSketch] at ha
    by_cases he : raw.data = []
    · rw [if_pos he] at ha
      exact absurd ha (by simp)
    · rw [if_neg he] at ha
      by_cases hc : (sanitizeSketchChars raw.data).contains '\n' = true
      · rw [if_pos hc] at ha
        exact absurd ha (by simp)
      · rw [if_neg hc] at ha
        injection ha with ha2
        rw [← ha2]
        simpa using hc

/-- Witness for C5's amended theorem at a concrete accepted response. -/
theorem oracle_response_validation_witness :
    ("p" : String).data.contains '\n' = false :=
  (oracle_response_validation "p").2.2.1 "p" rfl

/-! ### C6: stale feedback immunity (spec-modelled generation guard) -/

/-- C6: feedback whose dispatch generation differs from the session's
current generation is discarded: `onFeedback` returns the session and the
buffer exactly as they were — no buffer edit, no depth change, no
termination. -/
theorem stale_feedback_discarded (generationAtDispatch : Nat) (errors : List Nat)
    (sketch : Option String) (s : GenSession) (buf : List String)
    (h : generationAtDispatch ≠ s.generation) :
    onFeedback generationAtDispatch errors sketch s buf = .noop s buf := by
  unfold onFeedback
  simp [h]

/-- Witness for C6 at a concrete stale generation. -/
theorem stale_feedback_discarded_witness :
    onFeedback 1 [] none { state := sessionMid, generation := 0 } [] =
      .noop { state := sessionMid, generation := 0 } [] :=
  stale_feedback_discarded 1 [] none { state := sessionMid, generation := 0 } [] (by decide)

/-! ### C7: noninterference of foreign diagnostics -/

/-- C7 (amended, for the filtered draft at part_001 lines 211-231): two
diagnostic snapshots that agree on the entries of the session's buffer
produce identical feedback transitions, whatever the diagnostics of any
other buffer are. -/
theorem diagnostics_noninterference (docKey : String)
    (all1 all2 : List (String × List Nat)) (sketch : Option String)
    (st : AssertDivideState) (buf : List String)
    (h : all1.filter (fun p => p.1 == docKey) = all2.filter (fun p => p.1 == docKey)) :
    diagnosticsStep docKey all1 sketch st buf = diagnosticsStep docKey all2 sketch st buf := by
  unfold diagnosticsStep collectDiagnostics
  rw [h]

/-- Witness for C7: adding a foreign buffer's diagnostic does not change the
filtered draft's transition. -/
theorem diagnostics_noninterference_witness :
    diagnosticsStep "doc" [("other", [3])] none sessionLow [] =
      diagnosticsStep "doc" [] none sessionLow [] :=
  diagnostics_noninterference "doc" [("other", [3])] [] none sessionLow [] (by decide)

/-- C7 (counterexample, for the unfiltered draft at part_001 lines 540-554):
the same change of a foreign buffer's diagnostics flips the transition of
the unfiltered step — with the foreign error present the session stalls,
without it the session is deleted as succeeded. -/
theorem foreign_diagnostics_change_transition :
    diagnosticsStepAll [("other", [3])] none sessionLow [] ≠
      diagnosticsStepAll [] none sessionLow [] := by
  decide

/-! ### C8: non-obligation lines create no session -/

/-- C8: if the cursor line's trimmed text does not begin with the `assert`
keyword, or the line contains no `assert ... ;` statement, then the
extractor fails and `handle` neither creates a session nor modifies the
buffer. -/
theorem not_an_obligation_no_session (cursorLine : Nat) (text : String)
    (sketch : Option String) (buf : List String)
    (h : (trimChars text.data).take 6 ≠ "assert".toList ∨ findAssertMatch text.data = none) :
    extractAssertInfo cursorLine text = none ∧
      handle cursorLine text sketch buf = (none, buf) := by
  have he : extractAssertInfo cursorLine text = none := by
    unfold extractAssertInfo
    rcases h with h | h
    · rw [if_pos h]
    · split
      · rfl
      · rw [h]
  exact ⟨he, by unfold handle; rw [he]⟩

/-- Witness for C8 at a concrete non-obligation line. -/
theorem not_an_obligation_no_session_witness :
    extractAssertInfo 3 "var x := 3" = none ∧
      handle 3 "var x := 3" none ["var x := 3"] = (none, ["var x := 3"]) :=
  not_an_obligation_no_session 3 "var x := 3" none ["var x := 3"] (Or.inl (by decide))

/-! ### C3: classification of feedback with a pending attempt -/

/-- Helper: an issued `tryAssertStep` outcome records the attempt one line
above the shifted target and has incremented the depth from a depth that
passed the guard. -/
theorem tryAssertStep_issued_shape (sketch : Option String) (st : AssertDivideState)
    (buf : List String) (st1 : AssertDivideState) (buf1 : List String)
    (h : tryAssertStep sketch st buf = .issued st1 buf1) :
    st.depth ≤ 5 ∧ st1.depth = st.depth + 1 ∧
      st1.attempt = some { line := st.targetAssertion.line + 1 - 1,
                           assertion := (validateSketch sketch).getD "" } ∧
      st1.targetAssertion.line = st.targetAssertion.line + 1 := by
  unfold tryAssertStep at h
  split at h
  · exact absurd h (by simp)
  · next hle =>
    cases hv : validateSketch sketch with
    | none => rw [hv] at h; exact absurd h (by simp)
    | some a =>
      rw [hv] at h
      injection h with h1 h2
      subst h1
      exact ⟨by omega, rfl, by simp, rfl⟩

/-- Helper: same shape statement for the GenerateCommands draft. -/
theorem tryAssertStepGC_issued_shape (sketch : Option String) (st : AssertDivideState)
    (buf : List String) (st1 : AssertDivideState) (buf1 : List String)
    (h : tryAssertStepGC sketch st buf = .issued st1 buf1) :
    st.depth ≤ 5 ∧ st1.depth = st.depth + 1 ∧
      st1.attempt = some { line := st.targetAssertion.line + 1 - 1,
                           assertion := (validateSketchGC sketch).getD "" } ∧
      st1.targetAssertion.line = st.targetAssertion.line + 1 := by
  unfold tryAssertStepGC at h
  split at h
  · exact absurd h (by simp)
  · next hle =>
    cases hv : validateSketchGC sketch with
    | none => rw [hv] at h; exact absurd h (by simp)
    | some a =>
      rw [hv] at h
      injection h with h1 h2
      subst h1
      exact ⟨by omega, rfl, by simp, rfl⟩

/-- C3 (amended, for the part_001 handler): with a pending attempt, the
session is deleted as succeeded exactly when neither the target's line nor
the attempt's line carries a verification error, and when the target holds
while the attempt fails the handler promotes (appends the old target to the
history, makes the attempt the target, clears `attempt`) and calls
`tryAssertStep` again. -/
theorem succeeded_iff_both_hold (errors : List Nat) (sketch : Option String)
    (st : AssertDivideState) (buf : List String) (a : Obligation)
    (ha : st.attempt = some a) :
    ((handleDiagnosticsChange errors sketch st buf = .deleted true) ↔
      (errors.contains st.targetAssertion.line = false ∧
        errors.contains a.line = false)) ∧
    (errors.contains st.targetAssertion.line = false →
      errors.contains a.line = true →
      handleDiagnosticsChange errors sketch st buf =
        .advanced (tryAssertStep sketch (promote st a) buf)) := by
  unfold handleDiagnosticsChange
  rw [ha]
  cases hT : errors.contains st.targetAssertion.line <;>
    cases hA : errors.contains a.line <;>
      simp_all

/-- Witness for C3's amended theorem: both lines hold, the session is
deleted as succeeded. -/
theorem succeeded_iff_both_hold_witness :
    handleDiagnosticsChange [] (some "p") sessionMid ["l"] = .deleted true :=
  ((succeeded_iff_both_hold [] (some "p") sessionMid ["l"] attemptMid rfl).1).mpr ⟨rfl, rfl⟩

/-- C3 (counterexample, GenerateCommands draft): with the target holding and
the attempt failing, that draft's handler deletes the session as succeeded
instead of promoting. -/
theorem succeeded_despite_failed_attempt :
    handleDiagnosticsChangeGC [10] (some "p") sessionMid [] = .deleted true ∧
    handleDiagnosticsChangeGC [10] (some "p") sessionMid [] ≠
      .advanced (tryAssertStepGC (some "p") (promote sessionMid attemptMid) []) :=
  ⟨rfl, by decide⟩

/-! ### C4: the attempt sits one line above the target -/

/-- The line invariant of the spec: whenever an attempt is present it is
anchored exactly one line above the target. -/
def AttemptInv (st : AssertDivideState) : Prop :=
  ∀ a, st.attempt = some a → a.line + 1 = st.targetAssertion.line

/-- The line invariant carried through a `tryAssertStep` outcome. -/
def stepOutcomeInv : StepOutcome → Prop
  | .issued st _ => AttemptInv st
  | _ => True

/-- The line invariant carried through a feedback transition. -/
def feedbackResultInv : FeedbackResult → Prop
  | .deleted _ => True
  | .advanced out => stepOutcomeInv out
  | .unchanged st _ => AttemptInv st

/-- C4: immediately after every insertion performed by either draft's
`tryAssertStep` the recorded attempt sits at `targetAssertion.line - 1`
(first two conjuncts), and the part_001 feedback handler preserves the
invariant that a present attempt sits one line above the target (third
conjunct), so the equation holds whenever an attempt is present. -/
theorem attempt_line_invariant :
    (∀ sketch st buf st1 buf1, tryAssertStep sketch st buf = .issued st1 buf1 →
      AttemptInv st1) ∧
    (∀ sketch st buf st1 buf1, tryAssertStepGC sketch st buf = .issued st1 buf1 →
      AttemptInv st1) ∧
    (∀ errors sketch st buf, AttemptInv st →
      feedbackResultInv (handleDiagnosticsChange errors sketch st buf)) := by
  have h1 : ∀ sketch st buf st1 buf1, tryAssertStep sketch st buf = .issued st1 buf1 →
      AttemptInv st1 := by
    intro sketch st buf st1 buf1 h
    obtain ⟨-, -, hatt, htgt⟩ := tryAssertStep_issued_shape sketch st buf st1 buf1 h
    intro a ha
    rw [hatt] at ha
    injection ha with ha2
    rw [← ha2, htgt]
    show st.targetAssertion.line + 1 - 1 + 1 = st.targetAssertion.line + 1
    omega
  have hstep : ∀ sketch st1 buf1, stepOutcomeInv (tryAssertStep sketch st1 buf1) := by
    intro sk st1 buf1
    cases hs : tryAssertStep sk st1 buf1 with
    | exhausted => trivial
    | abandoned => trivial
    | issued s2 b2 => exact h1 _ _ _ _ _ hs
  refine ⟨h1, ?_, ?_⟩
  · intro sketch st buf st1 buf1 h
    obtain ⟨-, -, hatt, htgt⟩ := tryAssertStepGC_issued_shape sketch st buf st1 buf1 h
    intro a ha
    rw [hatt] at ha
    injection ha with ha2
    rw [← ha2, htgt]
    show st.targetAssertion.line + 1 - 1 + 1 = st.targetAssertion.line + 1
    omega
  · intro errors sketch st buf hinv
    unfold handleDiagnosticsChange
    cases hatt : st.attempt with
    | none => trivial
    | some a =>
      dsimp only
      repeat' split
      all_goals first
        | exact hinv
        | exact hstep _ _ _
        | trivial

/-- Witness for C4 at a concrete issued step: the attempt recorded by
`tryAssertStep` on the fresh session sits at line 10, one above the shifted
target at line 11. -/
theorem attempt_line_invariant_witness : (10 : Nat) + 1 = 11 :=
  (attempt_line_invariant.1 (some "p") sessionFresh []
      { targetAssertion := { line := 11, assertion := "A" }
        depth := 1
        attempt := some { line := 10, assertion := "p" }
        verifiedAssertions := [] }
      (insertAssertion [] "p" 10) rfl)
    { line := 10, assertion := "p" } rfl

/-! ### C1: the depth budget bounds calls and candidates -/

/-- Run invariant: a live session's depth equals the number of
`tryAssertStep` calls so far and stays within the budget; the counters obey
the global bounds. -/
def RunInv : RunState × RunStats → Prop
  | (.alive st _, s) => st.depth = s.calls ∧ s.calls ≤ 6 ∧ s.cands ≤ s.calls ∧ s.cands ≤ 6
  | (.dead, s) => s.calls ≤ 7 ∧ s.cands ≤ 6

/-- Helper: `tryAssertStep` can only terminate the run (`.exhausted` when
entered at depth above 5, `.abandoned` on a rejected candidate) or issue a
candidate at depth one higher; the invariant follows for the bookkept
outcome. -/
theorem applyOutcome_inv (sketch : Option String) (st : AssertDivideState)
    (buf : List String) (s : RunStats) (hd : st.depth = s.calls) (hc : s.calls ≤ 6)
    (hx : s.cands ≤ s.calls) (h6 : s.cands ≤ 6) :
    RunInv (applyOutcome (tryAssertStep sketch st buf) s) := by
  cases hout : tryAssertStep sketch st buf with
  | exhausted =>
    simp only [applyOutcome, RunInv]
    omega
  | abandoned =>
    simp only [applyOutcome, RunInv]
    omega
  | issued st1 buf1 =>
    obtain ⟨h5, hdep, -, -⟩ := tryAssertStep_issued_shape sketch st buf st1 buf1 hout
    simp only [applyOutcome, RunInv]
    omega

/-- Helper: a feedback transition that leaves the session as it was keeps
the session and the buffer. -/
theorem handleDiagnosticsChange_unchanged (errors : List Nat) (sketch : Option String)
    (st : AssertDivideState) (buf : List String) (st1 : AssertDivideState)
    (buf1 : List String)
    (h : handleDiagnosticsChange errors sketch st buf = .unchanged st1 buf1) :
    st1 = st ∧ buf1 = buf := by
  unfold handleDiagnosticsChange at h
  cases hatt : st.attempt with
  | none =>
    rw [hatt] at h
    exact absurd h (by simp)
  | some a =>
    rw [hatt] at h
    dsimp only at h
    split at h
    · split at h
      · exact absurd h (by simp)
      · split at h
        · exact absurd h (by simp)
        · exact absurd h (by simp)
    · injection h with h1 h2
      exact ⟨h1.symm, h2.symm⟩

/-- Helper: whenever a feedback transition runs `tryAssertStep` again, it
does so on a state of unchanged depth. -/
theorem handleDiagnosticsChange_advanced (errors : List Nat) (sketch : Option String)
    (st : AssertDivideState) (buf : List String) (out : StepOutcome)
    (h : handleDiagnosticsChange errors sketch st buf = .advanced out) :
    ∃ st1 buf1, out = tryAssertStep sketch st1 buf1 ∧ st1.depth = st.depth := by
  unfold handleDiagnosticsChange at h
  cases hatt : st.attempt with
  | none =>
    rw [hatt] at h
    exact absurd h (by simp)
  | some a =>
    rw [hatt] at h
    dsimp only at h
    split at h
    · split at h
      · injection h with h1
        exact ⟨promote st a, buf, h1.symm, rfl⟩
      · split at h
        · exact absurd h (by simp)
        · injection h with h1
          exact ⟨st, commentOutLine buf a.line, h1.symm, rfl⟩
    · exact absurd h (by simp)

/-- Helper: one feedback notification preserves the run invariant. -/
theorem feedbackStep_inv (oracle : Nat → Option String) (errors : List Nat)
    (p : RunState × RunStats) (h : RunInv p) :
    RunInv (feedbackStep oracle errors p) := by
  obtain ⟨rs, s⟩ := p
  cases rs with
  | dead => exact h
  | alive st buf =>
    obtain ⟨hd, hc, hx, h6⟩ := h
    cases hres : handleDiagnosticsChange errors (oracle s.calls) st buf with
    | deleted b =>
      simp only [feedbackStep, hres, RunInv]
      omega
    | unchanged st1 buf1 =>
      obtain ⟨h1, h2⟩ := handleDiagnosticsChange_unchanged _ _ _ _ _ _ hres
      subst h1
      simp only [feedbackStep, hres, RunInv]
      exact ⟨hd, hc, hx, h6⟩
    | advanced out =>
      obtain ⟨st1, buf1, ho, hdep⟩ := handleDiagnosticsChange_advanced _ _ _ _ _ hres
      subst ho
      simp only [feedbackStep, hres]
      exact applyOutcome_inv _ _ _ _ (by omega) hc hx h6

/-- Helper: the invariant is preserved along any list of notifications. -/
theorem foldFeedback_inv (oracle : Nat → Option String) (events : List (List Nat)) :
    ∀ p, RunInv p →
      RunInv (events.foldl (fun acc ev => feedbackStep oracle ev acc) p) := by
  induction events with
  | nil => intro p h; exact h
  | cons e t ih =>
    intro p h
    exact ih _ (feedbackStep_inv oracle e p h)

/-- C1 (amended): for every oracle behavior and every sequence of verifier
notifications, a session started at depth 0 makes at most
`MAX_DEPTH + 2 = 7` `tryAssertStep` calls and issues at most
`MAX_DEPTH + 1 = 6` candidates; the guard `state.depth > 5` is checked
before the increment, so the destroying call is the one entered at depth 6. -/
theorem advance_call_bound (oracle : Nat → Option String) (events : List (List Nat))
    (st0 : AssertDivideState) (buf0 : List String) (h0 : st0.depth = 0) :
    (runSession oracle events st0 buf0).2.calls ≤ 7 ∧
      (runSession oracle events st0 buf0).2.cands ≤ 6 := by
  have hinit : RunInv (applyOutcome (tryAssertStep (oracle 0) st0 buf0)
      { calls := 0, cands := 0 }) :=
    applyOutcome_inv (oracle 0) st0 buf0 { calls := 0, cands := 0 } h0
      (by decide) (by decide) (by decide)
  have h := foldFeedback_inv oracle events _ hinit
  rcases hr : events.foldl (fun acc ev => feedbackStep oracle ev acc)
      (applyOutcome (tryAssertStep (oracle 0) st0 buf0) { calls := 0, cands := 0 })
    with ⟨rs, s⟩
  rw [hr] at h
  have hrun : runSession oracle events st0 buf0 = (rs, s) := hr
  rw [hrun]
  dsimp only
  cases rs with
  | alive st buf =>
    obtain ⟨-, hc, -, h6⟩ := h
    exact ⟨by omega, h6⟩
  | dead => exact h

/-- Witness for C1's amended bound on a concrete (immediately abandoned)
run. -/
theorem advance_call_bound_witness :
    (runSession (fun _ => none) [] sessionFresh []).2.calls ≤ 7 ∧
      (runSession (fun _ => none) [] sessionFresh []).2.cands ≤ 6 :=
  advance_call_bound (fun _ => none) [] sessionFresh [] rfl

/-- C1 (counterexample): with an oracle that always returns the valid but
unhelpful candidate `p` and feedback that always reports the attempt's line
10 as failing (so the handler promotes every time), the session makes 7
`tryAssertStep` calls and issues 6 candidates, exceeding the claimed bounds
of 6 calls and 5 candidates. -/
theorem advance_call_bound_violated :
    ¬((runSession (fun _ => some "p") (List.replicate 6 [10]) sessionFresh []).2.calls ≤ 6 ∧
      (runSession (fun _ => some "p") (List.replicate 6 [10]) sessionFresh []).2.cands ≤ 5) := by
  intro hcontra
  have hv : (runSession (fun _ => some "p") (List.replicate 6 [10]) sessionFresh []).2 =
      { calls := 7, cands := 6 } := rfl
  rw [hv] at hcontra
  exact absurd hcontra (by decide)
